import Mathlib

/-!
# Verification of the ssh-manager-bot connection-link encoder

Shallow embedding of the connection-link encoder core of `src/lib.rs`
(`sagernet_link_generator`, `compress_data`, `encode_qr_code_to_image_bytes`)
together with proofs of the specification's claims about it.

Bytes are modelled as `Nat` values `< 256`; machine-integer truncation
(`as u8`, `as u16`) is modelled by explicit `% 256` / `% 65536`.
Rust panics (`.unwrap()` on `None`/`Err`) are modelled by returning `none`
from the embedded function.
-/

namespace SshMgr

/-- UTF-8 encoding of a single Unicode code point, as Rust's `str::as_bytes`
produces it (the embedding of the byte view of a Rust `&str`). -/
def utf8Encode (c : Nat) : List Nat :=
  if c < 0x80 then [c]
  else if c < 0x800 then [0xC0 + c / 64, 0x80 + c % 64]
  else if c < 0x10000 then [0xE0 + c / 4096, 0x80 + c / 64 % 64, 0x80 + c % 64]
  else [0xF0 + c / 262144, 0x80 + c / 4096 % 64, 0x80 + c / 64 % 64, 0x80 + c % 64]

/-- The byte sequence of a string: Rust's `s.as_bytes()`. -/
def strBytes (s : String) : List Nat :=
  (s.data.map (fun c => utf8Encode c.toNat)).flatten

/-- All characters of the string are single-byte (ASCII-range) characters. -/
def allAsciiB (s : String) : Bool :=
  s.data.all (fun c => c.toNat < 128)

/-- The field-encoding step of `sagernet_link_generator` (src/lib.rs:453-455,
465-467, 473-475): take the string's bytes, `pop` the final byte, and `push`
the final *char* cast `as u8` plus 128 (wrapping, release semantics).
`chars().last().unwrap()` panics on the empty string, modelled as `none`. -/
def fieldEncode (s : String) : Option (List Nat) :=
  match s.data.getLast? with
  | none => none
  | some c => some ((strBytes s).dropLast ++ [(c.toNat % 256 + 128) % 256])

/-- The title string built at src/lib.rs:481:
`format!("SpeedPing({}) {} {}", username, location, exp_date)`. -/
def titleOf (username location expDate : String) : String :=
  "SpeedPing(" ++ username ++ ") " ++ location ++ " " ++ expDate

/-- The pre-compression serialized payload (`kryo_bytes`) assembled by
`sagernet_link_generator` (src/lib.rs:451-484).  The port is a `u32`
truncated `as u16` and written little-endian. -/
def serializeProfile (serverAddress : String) (port : Nat)
    (username password location expDate : String) : Option (List Nat) := do
  let saB ← fieldEncode serverAddress
  let uB ← fieldEncode username
  let pB ← fieldEncode password
  pure ([0, 0, 0, 0] ++ saB
    ++ [port % 65536 % 256, port % 65536 / 256]
    ++ [0, 0] ++ uB
    ++ [1, 0, 0, 0] ++ pB
    ++ [0x81, 0x01, 0x00, 0x00, 0x00, 0xA1]
    ++ strBytes (titleOf username location expDate)
    ++ [0, 0, 0, 0])

/-! ## Spec-side definitions (refinement targets)

These follow the wording of the specification (§4.1 FieldEncoder and the
§4.2 segment table), to be compared against the embedding above. -/

/-- The spec's `FE(s)`: the value's bytes except the final byte, which is
replaced by `original_byte + 128`. -/
def specFieldEncode (s : String) : List Nat :=
  (strBytes s).dropLast ++ [(strBytes s).getLastD 0 + 128]

/-- The spec's §4.2 segment table: header, `FE(serverAddress)`, 2-byte
little-endian port, reserved, `FE(username)`, marker A, `FE(password)`,
marker B, plain ASCII title bytes, trailer. -/
def specWirePayload (serverAddress : String) (port : Nat)
    (username password location expDate : String) : List Nat :=
  [0, 0, 0, 0] ++ specFieldEncode serverAddress
    ++ [port % 256, port / 256]
    ++ [0, 0] ++ specFieldEncode username
    ++ [1, 0, 0, 0] ++ specFieldEncode password
    ++ [0x81, 0x01, 0x00, 0x00, 0x00, 0xA1]
    ++ (titleOf username location expDate).data.map Char.toNat
    ++ [0, 0, 0, 0]

/-! ## Basic lemmas about the byte view of strings -/

theorem utf8Encode_ascii {c : Nat} (h : c < 128) : utf8Encode c = [c] := by
  simp [utf8Encode, h]

theorem flatten_utf8_of_ascii (l : List Char) (h : ∀ c ∈ l, c.toNat < 128) :
    (l.map (fun c => utf8Encode c.toNat)).flatten = l.map Char.toNat := by
  induction l with
  | nil => rfl
  | cons c cs ih =>
    simp only [List.map_cons, List.flatten_cons,
      utf8Encode_ascii (h c (List.mem_cons_self c cs))]
    rw [ih (fun x hx => h x (List.mem_cons_of_mem c hx))]
    rfl

/-- For an all-ASCII string the byte sequence is the character values. -/
theorem strBytes_of_ascii {s : String} (h : allAsciiB s = true) :
    strBytes s = s.data.map Char.toNat := by
  unfold strBytes
  exact flatten_utf8_of_ascii s.data (by simpa [allAsciiB, List.all_eq_true] using h)

theorem data_ne_nil_of_ne_empty {s : String} (h : s ≠ "") : s.data ≠ [] := by
  intro hd
  exact h (String.ext_iff.mpr (by simpa using hd))

/-- Under the spec's precondition the code's field encoding agrees with the
spec's `FE`. -/
theorem fieldEncode_eq_spec {s : String} (hne : s ≠ "") (ha : allAsciiB s = true) :
    fieldEncode s = some (specFieldEncode s) := by
  have hd := data_ne_nil_of_ne_empty hne
  obtain ⟨c, hc⟩ : ∃ c, s.data.getLast? = some c := by
    cases hg : s.data.getLast? with
    | none => exact absurd (List.getLast?_eq_none_iff.mp hg) hd
    | some c => exact ⟨c, rfl⟩
  have hmem : c ∈ s.data := by
    obtain ⟨hne', hcl⟩ :=
      List.mem_getLast?_eq_getLast (show c ∈ s.data.getLast? from hc)
    exact hcl ▸ List.getLast_mem hne'
  have hlt : c.toNat < 128 := by
    have := (List.all_eq_true.mp ha) c hmem
    simpa using this
  have hbytes := strBytes_of_ascii ha
  have hlast : (strBytes s).getLastD 0 = c.toNat := by
    rw [hbytes]
    have : (s.data.map Char.toNat).getLast? = some c.toNat := by
      rw [List.getLast?_map, hc]; rfl
    simp [List.getLastD_eq_getLast?, this]
  have harith : (c.toNat % 256 + 128) % 256 = c.toNat + 128 := by omega
  unfold fieldEncode specFieldEncode
  rw [hc, hlast]
  show some ((strBytes s).dropLast ++ [(c.toNat % 256 + 128) % 256])
    = some ((strBytes s).dropLast ++ [c.toNat + 128])
  rw [harith]

/-- Claim C1 general layout: under the spec's preconditions (non-empty,
ASCII-only text fields, 16-bit port) the serialized pre-compression byte
sequence is exactly the spec's §4.2 segment table. -/
theorem serializeProfile_eq_spec (sa : String) (port : Nat) (u p l e : String)
    (hsa : sa ≠ "") (hu : u ≠ "") (hp : p ≠ "")
    (hsaA : allAsciiB sa = true) (huA : allAsciiB u = true)
    (hpA : allAsciiB p = true) (hlA : allAsciiB l = true)
    (heA : allAsciiB e = true) (hport : port < 65536) :
    serializeProfile sa port u p l e = some (specWirePayload sa port u p l e) := by
  have htitle : allAsciiB (titleOf u l e) = true := by
    unfold allAsciiB titleOf at *
    simp only [String.data_append, List.all_append]
    simp_all
  unfold serializeProfile
  rw [fieldEncode_eq_spec hsa hsaA, fieldEncode_eq_spec hu huA,
    fieldEncode_eq_spec hp hpA]
  unfold specWirePayload
  rw [strBytes_of_ascii htitle, Nat.mod_eq_of_lt hport]
  rfl

/-! ## Compression stage

`compress_data` (src/lib.rs:421-427) writes the payload through a
`flate2::write::ZlibEncoder`.  The encoder itself is an external library. -/

/-- One step of the Adler-32 checksum used by the zlib container. -/
def adlerStep (st : Nat × Nat) (b : Nat) : Nat × Nat :=
  ((st.1 + b) % 65521, (st.2 + (st.1 + b) % 65521) % 65521)

/-- The Adler-32 checksum of a byte sequence. -/
def adler32 (data : List Nat) : Nat :=
  ((data.foldl adlerStep (1, 0)).2) * 65536 + (data.foldl adlerStep (1, 0)).1

/-- The Adler-32 checksum as four big-endian bytes, as the zlib trailer
stores it. -/
def adlerBytes (data : List Nat) : List Nat :=
  [adler32 data / 16777216 % 256, adler32 data / 65536 % 256,
   adler32 data / 256 % 256, adler32 data % 256]

/-- Modelled from the spec: the deflate stream produced by the external
`flate2` encoder is not available as source; §4.3 requires only "conformance
to the zlib/deflate format" ("the compression level is a local choice"), so
the deflate payload is modelled as stored (uncompressed) blocks, a conformant
deflate stream: each block is a BFINAL/BTYPE byte, `LEN` little-endian,
`NLEN = 0xFFFF - LEN` little-endian, then `LEN` literal bytes. -/
def deflateStored (b : List Nat) : List Nat :=
  if b.length ≤ 65535 then
    1 :: b.length % 256 :: b.length / 256 ::
      (65535 - b.length) % 256 :: (65535 - b.length) / 256 :: b
  else
    0 :: 255 :: 255 :: 0 :: 0 :: (b.take 65535 ++ deflateStored (b.drop 65535))
termination_by b.length
decreasing_by simp [List.length_drop]; omega

/-- A zlib container around the stored-block deflate stream: the two header
bytes `78 01` (CM=8, FCHECK valid), the deflate data, the Adler-32 trailer. -/
def zlibCompress (b : List Nat) : List Nat :=
  120 :: 1 :: (deflateStored b ++ adlerBytes b)

/-- Parser for a sequence of stored deflate blocks; returns the literal data
and the unconsumed remainder after the final block. -/
def inflateBlocks : Nat → List Nat → Option (List Nat × List Nat)
  | 0, _ => none
  | fuel + 1, hdr :: l1 :: l2 :: n1 :: n2 :: rest =>
    if n1 + 256 * n2 = 65535 - (l1 + 256 * l2) ∧ l1 + 256 * l2 ≤ rest.length then
      if hdr = 1 then some (rest.take (l1 + 256 * l2), rest.drop (l1 + 256 * l2))
      else if hdr = 0 then
        match inflateBlocks fuel (rest.drop (l1 + 256 * l2)) with
        | some (d, r) => some (rest.take (l1 + 256 * l2) ++ d, r)
        | none => none
      else none
    else none
  | _ + 1, _ => none

/-- zlib decompression over the modelled container: check the two header
bytes, parse the stored blocks, verify the Adler-32 trailer. -/
def zlibDecompress (s : List Nat) : Option (List Nat) :=
  match s with
  | h1 :: h2 :: rest =>
    if h1 % 16 = 8 ∧ (h1 * 256 + h2) % 31 = 0 then
      match inflateBlocks rest.length rest with
      | some (d, r) => if r = adlerBytes d then some d else none
      | none => none
    else none
  | _ => none

/-- `compress_data` (src/lib.rs:421-427): `write_all` propagates a writer
error with `?`; otherwise `finish` yields the zlib bytes.  The possibility of
the in-memory writer rejecting data is modelled by the `writerFails`
parameter. -/
def compress_data (writerFails : Bool) (data : List Nat) :
    Except String (List Nat) :=
  if writerFails then Except.error "write failure"
  else Except.ok (zlibCompress data)

/-! ## Text-encoding stage: URL-safe base64 (the `base64_url` crate,
`-`/`_` alphabet, no padding) -/

/-- The URL-safe base64 alphabet. -/
def b64Alphabet : List Char :=
  "ABCDEFGHIJKLMNOPQRSTUVWXYZabcdefghijklmnopqrstuvwxyz0123456789-_".data

/-- The alphabet character for a 6-bit value. -/
def b64Char (n : Nat) : Char := b64Alphabet.getD n 'A'

/-- Split bytes into 6-bit groups, big-endian within each 3-byte group;
a trailing 1- or 2-byte group yields 2 or 3 sextets (no padding). -/
def b64Sextets : List Nat → List Nat
  | [] => []
  | [a] => [a / 4, a % 4 * 16]
  | [a, b] => [a / 4, a % 4 * 16 + b / 16, b % 16 * 4]
  | a :: b :: c :: rest =>
    (a / 4) :: (a % 4 * 16 + b / 16) :: (b % 16 * 4 + c / 64) :: (c % 64) ::
      b64Sextets rest

/-- `base64_url::encode` (src/lib.rs:488): URL-safe alphabet, no padding. -/
def base64urlEncode (bytes : List Nat) : String :=
  String.mk ((b64Sextets bytes).map b64Char)

def charIdx (c : Char) : List Char → Nat → Option Nat
  | [], _ => none
  | x :: xs, i => if x = c then some i else charIdx c xs (i + 1)

/-- The 6-bit value of an alphabet character. -/
def sextetOfChar (c : Char) : Option Nat := charIdx c b64Alphabet 0

/-- Reassemble bytes from 6-bit groups (inverse of `b64Sextets`). -/
def b64Unsextets : List Nat → Option (List Nat)
  | [] => some []
  | [_] => none
  | [s1, s2] => some [s1 * 4 + s2 / 16]
  | [s1, s2, s3] => some [s1 * 4 + s2 / 16, s2 % 16 * 16 + s3 / 4]
  | s1 :: s2 :: s3 :: s4 :: rest =>
    match b64Unsextets rest with
    | some d =>
      some ((s1 * 4 + s2 / 16) :: (s2 % 16 * 16 + s3 / 4) :: (s3 % 4 * 64 + s4) :: d)
    | none => none

/-- URL-safe base64 decoding: map characters back to sextets, reassemble. -/
def base64urlDecode (s : String) : Option (List Nat) :=
  match s.data.mapM sextetOfChar with
  | some sx => b64Unsextets sx
  | none => none

/-- Every character of a string belongs to the URL-safe base64 alphabet. -/
def isUrlSafeText (s : String) : Bool :=
  s.data.all (fun c => b64Alphabet.contains c)

/-! ## The full pipeline -/

/-- `sagernet_link_generator` (src/lib.rs:443-491): serialize the profile,
zlib-compress (`.unwrap()`: a compression error panics, modelled as `none`),
base64url-encode, prepend the `sn://ssh?` scheme.  A panic anywhere in the
pipeline (empty field, compression failure) yields `none`. -/
def sagernet_link_generator (writerFails : Bool) (serverAddress : String)
    (port : Nat) (username password location expDate : String) :
    Option String :=
  match serializeProfile serverAddress port username password location expDate with
  | none => none
  | some kryoBytes =>
    match compress_data writerFails kryoBytes with
    | Except.error _ => none
    | Except.ok zlibCompressed =>
      some ("sn://ssh?" ++ base64urlEncode zlibCompressed)

/-! ## Round-trip of the compression stage -/

theorem deflateStored_length (b : List Nat) :
    b.length + 5 ≤ (deflateStored b).length := by
  induction b using deflateStored.induct with
  | case1 b h =>
    rw [deflateStored, if_pos h]
    simp
  | case2 b h ih =>
    rw [deflateStored, if_neg h]
    simp only [List.length_cons, List.length_append, List.length_take,
      List.length_drop] at *
    omega

theorem inflateBlocks_deflateStored (b : List Nat) :
    ∀ fuel suffix, b.length < fuel →
      inflateBlocks fuel (deflateStored b ++ suffix) = some (b, suffix) := by
  induction b using deflateStored.induct with
  | case1 b h =>
    intro fuel suffix hf
    match fuel, hf with
    | fuel + 1, _ =>
      rw [deflateStored, if_pos h]
      show inflateBlocks (fuel + 1)
        ((1 : Nat) :: b.length % 256 :: b.length / 256 ::
          (65535 - b.length) % 256 :: (65535 - b.length) / 256 ::
          (b ++ suffix)) = some (b, suffix)
      rw [inflateBlocks]
      rw [if_pos ?side]
      case side =>
        constructor
        · omega
        · rw [Nat.mod_add_div]
          simp
      rw [if_pos rfl]
      rw [Nat.mod_add_div, List.take_left' rfl, List.drop_left' rfl]
  | case2 b h ih =>
    intro fuel suffix hf
    match fuel, hf with
    | fuel + 1, _ =>
      rw [deflateStored, if_neg h]
      show inflateBlocks (fuel + 1)
        ((0 : Nat) :: 255 :: 255 :: 0 :: 0 ::
          ((b.take 65535 ++ deflateStored (b.drop 65535)) ++ suffix))
        = some (b, suffix)
      rw [inflateBlocks]
      have htk : (b.take 65535).length = 65535 := by
        simp only [List.length_take]
        omega
      rw [if_pos ?cond]
      case cond =>
        constructor
        · norm_num
        · show 255 + 256 * 255 ≤ ((b.take 65535 ++ deflateStored (b.drop 65535)) ++ suffix).length
          simp only [List.length_append, htk]
          omega
      rw [if_neg (by norm_num), if_pos rfl]
      have hdrop : (((b.take 65535 ++ deflateStored (b.drop 65535)) ++ suffix)).drop
          (255 + 256 * 255) = deflateStored (b.drop 65535) ++ suffix := by
        rw [List.append_assoc]
        exact List.drop_left' (by rw [htk])
      have htake : (((b.take 65535 ++ deflateStored (b.drop 65535)) ++ suffix)).take
          (255 + 256 * 255) = b.take 65535 := by
        rw [List.append_assoc]
        exact List.take_left' (by rw [htk])
      rw [hdrop, htake]
      rw [ih fuel suffix (by simp only [List.length_drop]; omega)]
      show some (List.take 65535 b ++ List.drop 65535 b, suffix) = some (b, suffix)
      rw [List.take_append_drop]

/-- Round-trip law of the modelled compression stage. -/
theorem zlibDecompress_zlibCompress (b : List Nat) :
    zlibDecompress (zlibCompress b) = some b := by
  have hlen : b.length < (deflateStored b ++ adlerBytes b).length := by
    have := deflateStored_length b
    simp only [List.length_append]
    omega
  show zlibDecompress (120 :: 1 :: (deflateStored b ++ adlerBytes b)) = some b
  rw [zlibDecompress]
  rw [if_pos (by norm_num)]
  rw [inflateBlocks_deflateStored b _ (adlerBytes b) hlen]
  show (if adlerBytes b = adlerBytes b then some b else none) = some b
  rw [if_pos rfl]

/-! ## Round-trip of the text-encoding stage -/

theorem b64Sextets_lt (bytes : List Nat) (h : ∀ x ∈ bytes, x < 256) :
    ∀ y ∈ b64Sextets bytes, y < 64 := by
  induction bytes using b64Sextets.induct with
  | case1 => intro y hy; simp [b64Sextets] at hy
  | case2 a =>
    intro y hy
    have ha := h a (by simp)
    simp only [b64Sextets, List.mem_cons, List.not_mem_nil, or_false] at hy
    rcases hy with rfl | rfl <;> omega
  | case3 a b =>
    intro y hy
    have ha := h a (by simp)
    have hb := h b (by simp)
    simp only [b64Sextets, List.mem_cons, List.not_mem_nil, or_false] at hy
    rcases hy with rfl | rfl | rfl <;> omega
  | case4 a b c rest ih =>
    intro y hy
    have ha := h a (by simp)
    have hb := h b (by simp)
    have hc := h c (by simp)
    simp only [b64Sextets, List.mem_cons] at hy
    rcases hy with rfl | rfl | rfl | rfl | hy
    · omega
    · omega
    · omega
    · omega
    · exact ih (fun x hx => h x (by simp [hx])) y hy

theorem b64Unsextets_b64Sextets (bytes : List Nat) (h : ∀ x ∈ bytes, x < 256) :
    b64Unsextets (b64Sextets bytes) = some bytes := by
  induction bytes using b64Sextets.induct with
  | case1 => rfl
  | case2 a =>
    have ha := h a (by simp)
    show b64Unsextets [a / 4, a % 4 * 16] = some [a]
    simp only [b64Unsextets, Option.some.injEq, List.cons.injEq, and_true]
    omega
  | case3 a b =>
    have ha := h a (by simp)
    have hb := h b (by simp)
    show b64Unsextets [a / 4, a % 4 * 16 + b / 16, b % 16 * 4] = some [a, b]
    simp only [b64Unsextets, Option.some.injEq, List.cons.injEq, and_true]
    constructor
    · omega
    · omega
  | case4 a b c rest ih =>
    have ha := h a (by simp)
    have hb := h b (by simp)
    have hc := h c (by simp)
    have ihr := ih (fun x hx => h x (by simp [hx]))
    show b64Unsextets ((a / 4) :: (a % 4 * 16 + b / 16) :: (b % 16 * 4 + c / 64)
      :: (c % 64) :: b64Sextets rest) = some (a :: b :: c :: rest)
    rw [b64Unsextets, ihr]
    simp only [Option.some.injEq, List.cons.injEq, and_true]
    refine ⟨by omega, by omega, by omega⟩

theorem sextetOfChar_b64Char : ∀ n < 64, sextetOfChar (b64Char n) = some n := by
  decide

theorem mapM_sextetOfChar (l : List Nat) (h : ∀ x ∈ l, x < 64) :
    ((l.map b64Char).mapM sextetOfChar) = some l := by
  induction l with
  | nil => rfl
  | cons a as ih =>
    rw [List.map_cons, List.mapM_cons,
      sextetOfChar_b64Char a (h a (by simp)),
      ih (fun x hx => h x (by simp [hx]))]
    rfl

/-- Round-trip law of the text-encoding stage. -/
theorem base64urlDecode_base64urlEncode (b : List Nat) (h : ∀ x ∈ b, x < 256) :
    base64urlDecode (base64urlEncode b) = some b := by
  unfold base64urlDecode base64urlEncode
  rw [show (String.mk ((b64Sextets b).map b64Char)).data
    = (b64Sextets b).map b64Char from rfl]
  rw [mapM_sextetOfChar _ (b64Sextets_lt b h)]
  exact b64Unsextets_b64Sextets b h

/-! ## Byte bounds -/

theorem char_toNat_lt (c : Char) : c.toNat < 1114112 := by
  have h := c.valid
  rcases h with h | ⟨h1, h2⟩
  · exact Nat.lt_trans h (by decide)
  · exact h2

theorem utf8Encode_lt (c : Nat) (hc : c < 1114112) : ∀ x ∈ utf8Encode c, x < 256 := by
  unfold utf8Encode
  split_ifs with h1 h2 h3 <;>
    (intro x hx
     simp only [List.mem_cons, List.not_mem_nil, or_false] at hx) <;>
    omega

theorem strBytes_lt (s : String) : ∀ x ∈ strBytes s, x < 256 := by
  intro x hx
  unfold strBytes at hx
  rw [List.mem_flatten] at hx
  obtain ⟨sub, hsub, hxs⟩ := hx
  rw [List.mem_map] at hsub
  obtain ⟨c, _, rfl⟩ := hsub
  exact utf8Encode_lt _ (char_toNat_lt c) x hxs

theorem fieldEncode_lt {s : String} {out : List Nat}
    (h : fieldEncode s = some out) : ∀ x ∈ out, x < 256 := by
  unfold fieldEncode at h
  cases hg : s.data.getLast? with
  | none => rw [hg] at h; cases h
  | some c =>
    rw [hg] at h
    cases h
    intro x hx
    rw [List.mem_append] at hx
    rcases hx with hx | hx
    · exact strBytes_lt s x (List.dropLast_subset _ hx)
    · simp only [List.mem_cons, List.not_mem_nil, or_false] at hx
      omega

theorem serializeProfile_lt {sa : String} {port : Nat} {u p l e : String}
    {bytes : List Nat} (h : serializeProfile sa port u p l e = some bytes) :
    ∀ x ∈ bytes, x < 256 := by
  unfold serializeProfile at h
  cases hsa : fieldEncode sa with
  | none => rw [hsa] at h; cases h
  | some saB =>
  cases hu : fieldEncode u with
  | none => rw [hsa, hu] at h; cases h
  | some uB =>
  cases hp : fieldEncode p with
  | none => rw [hsa, hu, hp] at h; cases h
  | some pB =>
    rw [hsa, hu, hp] at h
    cases h
    intro x hx
    simp only [List.mem_append, List.mem_cons, List.not_mem_nil, or_false] at hx
    casesm* _ ∨ _
    all_goals first
      | omega
      | exact fieldEncode_lt hsa x (by assumption)
      | exact fieldEncode_lt hu x (by assumption)
      | exact fieldEncode_lt hp x (by assumption)
      | exact strBytes_lt _ x (by assumption)

theorem adlerBytes_lt (d : List Nat) : ∀ x ∈ adlerBytes d, x < 256 := by
  intro x hx
  simp only [adlerBytes, List.mem_cons, List.not_mem_nil, or_false] at hx
  rcases hx with rfl | rfl | rfl | rfl <;> omega

theorem deflateStored_lt (b : List Nat) (h : ∀ x ∈ b, x < 256) :
    ∀ x ∈ deflateStored b, x < 256 := by
  induction b using deflateStored.induct with
  | case1 b hb =>
    rw [deflateStored, if_pos hb]
    intro x hx
    simp only [List.mem_cons] at hx
    rcases hx with rfl | rfl | rfl | rfl | rfl | hx
    · omega
    · omega
    · omega
    · omega
    · omega
    · exact h x hx
  | case2 b hb ih =>
    rw [deflateStored, if_neg hb]
    intro x hx
    simp only [List.mem_cons, List.mem_append] at hx
    rcases hx with rfl | rfl | rfl | rfl | rfl | hx | hx
    · omega
    · omega
    · omega
    · omega
    · omega
    · exact h x (List.take_subset _ _ hx)
    · exact ih (fun y hy => h y (List.drop_subset _ _ hy)) x hx

theorem zlibCompress_lt (b : List Nat) (h : ∀ x ∈ b, x < 256) :
    ∀ x ∈ zlibCompress b, x < 256 := by
  intro x hx
  simp only [zlibCompress, List.mem_cons, List.mem_append] at hx
  rcases hx with rfl | rfl | hx | hx
  · omega
  · omega
  · exact deflateStored_lt b h x hx
  · exact adlerBytes_lt b x hx

theorem b64Char_mem (n : Nat) (h : n < 64) : b64Char n ∈ b64Alphabet := by
  have hlen : b64Alphabet.length = 64 := rfl
  unfold b64Char
  rw [List.getD_eq_getElem _ _ (by rw [hlen]; omega)]
  exact List.getElem_mem _

theorem isUrlSafeText_base64urlEncode (z : List Nat) (h : ∀ x ∈ z, x < 256) :
    isUrlSafeText (base64urlEncode z) = true := by
  unfold isUrlSafeText base64urlEncode
  rw [List.all_eq_true]
  intro c hc
  rw [show (String.mk ((b64Sextets z).map b64Char)).data
    = (b64Sextets z).map b64Char from rfl] at hc
  rw [List.mem_map] at hc
  obtain ⟨n, hn, rfl⟩ := hc
  exact List.elem_eq_true_of_mem (b64Char_mem n (b64Sextets_lt z h n hn))

/-! ## Panic behavior on empty fields -/

theorem fieldEncode_empty : fieldEncode "" = none := rfl

theorem serializeProfile_empty_field (sa : String) (port : Nat)
    (u p l e : String) (h : sa = "" ∨ u = "" ∨ p = "") :
    serializeProfile sa port u p l e = none := by
  unfold serializeProfile
  rcases h with rfl | rfl | rfl
  · simp [fieldEncode_empty]
  · cases hsa : fieldEncode sa <;> simp [hsa, fieldEncode_empty]
  · cases hsa : fieldEncode sa <;> cases hu : fieldEncode u <;>
      simp [hsa, hu, fieldEncode_empty]

/-! ## The QR renderer (`encode_qr_code_to_image_bytes`, src/lib.rs:502-519)

The QR matrix construction, version selection and PNG container come from
the external `qrcode` and `image` crates; only the parts the spec's claims
touch are modelled: the fixed-level byte capacities that bound acceptance,
the quiet zone and integer module scaling that determine the raster size,
and the success/failure of the two fallible library calls. -/

/-- Modelled from the spec: byte-mode data capacity of QR versions 1..40 at
the fixed error-correction level used by the library's `QrCode::new`
(level M); the source of `QrCode::new` is not part of this repository. -/
def qrByteCapacities : List Nat :=
  [14, 26, 42, 62, 84, 106, 122, 152, 180, 213, 251, 287, 331, 362, 412,
   450, 504, 560, 624, 666, 711, 779, 857, 911, 997, 1059, 1125, 1190,
   1264, 1370, 1452, 1538, 1628, 1722, 1809, 1911, 1989, 2099, 2213, 2331]

/-- Modelled from the spec: `QrCode::new` chooses the QR version
automatically to fit the payload, failing when even the largest version at
the fixed error-correction level cannot hold it. -/
def chooseQrVersion (len : Nat) : Option Nat :=
  ((List.range 40).find? (fun i => len ≤ qrByteCapacities.getD i 0)).map
    (fun i => i + 1)

/-- Side length of the module grid of QR version `v`. -/
def qrModules (v : Nat) : Nat := 17 + 4 * v

/-- Modelled from the spec: the renderer's default quiet zone, in modules,
on each side of the grid. -/
def qrQuietZone : Nat := 4

/-- Modelled from the spec: `.max_dimensions(550, 550)` scales each module to
the largest integer pixel size keeping the raster within 550 pixels, never
below one pixel per module. -/
def qrModuleSize (v : Nat) : Nat :=
  max 1 (550 / (qrModules v + 2 * qrQuietZone))

/-- Side length in pixels of the rendered raster for QR version `v`. -/
def qrRasterDim (v : Nat) : Nat :=
  (qrModules v + 2 * qrQuietZone) * qrModuleSize v

/-- Modelled from the spec: PNG serialization is performed by the external
`image` crate; only its success/failure (the `pngFails` parameter) and the
raster dimensions are modelled, the pixel payload is not. -/
def pngWrite (pngFails : Bool) (v : Nat) : Except String (List Nat) :=
  if pngFails then Except.error "image encoding failure"
  else Except.ok [qrRasterDim v, qrRasterDim v]

/-- `encode_qr_code_to_image_bytes` (src/lib.rs:502-519): `QrCode::new`
followed by `.unwrap()` (an oversized payload panics, modelled as `none`),
rendering, and `write_to` into an initially empty buffer whose `Result` is
discarded — on a PNG failure the function still returns the buffer (empty)
as its value. -/
def encode_qr_code_to_image_bytes (pngFails : Bool) (text : String) :
    Option (List Nat) :=
  match chooseQrVersion (strBytes text).length with
  | none => none
  | some v =>
    some (match pngWrite pngFails v with
      | Except.ok bytes => bytes
      | Except.error _ => [])

/-! ## Auxiliary facts -/

theorem utf8Encode_ne_nil (c : Nat) : utf8Encode c ≠ [] := by
  unfold utf8Encode
  split_ifs <;> simp

theorem strBytes_ne_nil {s : String} (h : s ≠ "") : strBytes s ≠ [] := by
  have hd := data_ne_nil_of_ne_empty h
  unfold strBytes
  cases hdata : s.data with
  | nil => exact absurd hdata hd
  | cons c cs =>
    simp only [List.map_cons, List.flatten_cons]
    intro hcontra
    exact utf8Encode_ne_nil c.toNat (List.append_eq_nil.mp hcontra).1

theorem fieldEncode_of_ne_empty {s : String} (h : s ≠ "") :
    ∃ o, fieldEncode s = some o ∧ o.length = (strBytes s).length := by
  have hd := data_ne_nil_of_ne_empty h
  obtain ⟨c, hc⟩ : ∃ c, s.data.getLast? = some c := by
    cases hg : s.data.getLast? with
    | none => exact absurd (List.getLast?_eq_none_iff.mp hg) hd
    | some c => exact ⟨c, rfl⟩
  refine ⟨(strBytes s).dropLast ++ [(c.toNat % 256 + 128) % 256], ?_, ?_⟩
  · unfold fieldEncode
    rw [hc]
  · rw [List.length_append, List.length_dropLast]
    have h1 : 0 < (strBytes s).length := List.length_pos.mpr (strBytes_ne_nil h)
    simp only [List.length_cons, List.length_nil]
    omega

/-- The serialized payload of the golden profile
`{serverAddress: "1.2.3.4", port: 443, username: "user001",
password: "pass0001", location: "US", expiryDate: "2024-01-01"}`. -/
def goldenBytes : List Nat :=
  [0, 0, 0, 0, 49, 46, 50, 46, 51, 46, 180, 187, 1, 0, 0, 117, 115, 101,
   114, 48, 48, 177, 1, 0, 0, 0, 112, 97, 115, 115, 48, 48, 48, 177, 129,
   1, 0, 0, 0, 161, 83, 112, 101, 101, 100, 80, 105, 110, 103, 40, 117,
   115, 101, 114, 48, 48, 49, 41, 32, 85, 83, 32, 50, 48, 50, 52, 45, 48,
   49, 45, 48, 49, 0, 0, 0, 0]

/-! ## The claims -/

/-- C1: for every `ConnectionProfile` whose text fields are non-empty and
ASCII-only, the serialized (pre-compression) byte sequence is exactly the
header `00 00 00 00`, `FE(serverAddress)`, the port as a 2-byte
little-endian unsigned integer, `00 00`, `FE(username)`, `01 00 00 00`,
`FE(password)`, `81 01 00 00 00 A1`, the plain ASCII bytes of
`"SpeedPing(" + username + ") " + location + " " + expiryDate`, and the
trailer `00 00 00 00` (the §4.2 segment table `specWirePayload`). -/
theorem claim_C1 (sa : String) (port : Nat) (u p l e : String)
    (hsa : sa ≠ "") (hu : u ≠ "") (hp : p ≠ "")
    (hsaA : allAsciiB sa = true) (huA : allAsciiB u = true)
    (hpA : allAsciiB p = true) (hlA : allAsciiB l = true)
    (heA : allAsciiB e = true) (hport : port < 65536) :
    serializeProfile sa port u p l e = some (specWirePayload sa port u p l e) :=
  serializeProfile_eq_spec sa port u p l e hsa hu hp hsaA huA hpA hlA heA hport

/-- C1 witness: the golden vector — the profile
`{serverAddress: "1.2.3.4", port: 443, username: "user001",
password: "pass0001", location: "US", expiryDate: "2024-01-01"}`
serializes to exactly these bytes: header `00 00 00 00`, port field
`BB 01` (187, 1), and the title segment the ASCII bytes of
`"SpeedPing(user001) US 2024-01-01"`. -/
theorem claim_C1_witness :
    serializeProfile "1.2.3.4" 443 "user001" "pass0001" "US" "2024-01-01"
      = some [0, 0, 0, 0,
              49, 46, 50, 46, 51, 46, 180,
              187, 1,
              0, 0,
              117, 115, 101, 114, 48, 48, 177,
              1, 0, 0, 0,
              112, 97, 115, 115, 48, 48, 48, 177,
              129, 1, 0, 0, 0, 161,
              83, 112, 101, 101, 100, 80, 105, 110, 103, 40, 117, 115, 101,
              114, 48, 48, 49, 41, 32, 85, 83, 32, 50, 48, 50, 52, 45, 48,
              49, 45, 48, 49,
              0, 0, 0, 0] :=
  (claim_C1 "1.2.3.4" 443 "user001" "pass0001" "US" "2024-01-01"
    (by decide) (by decide) (by decide) (by rfl) (by rfl) (by rfl)
    (by rfl) (by rfl) (by decide)).trans (by rfl)

/-- C2: for every non-empty string `s` all of whose characters have byte
value < 128, the field-encoding step produces a byte sequence of the same
length as `s`, equal to `s`'s bytes at every position except the last,
whose last byte equals `s`'s last byte value plus 128. -/
theorem claim_C2 (s : String) (hne : s ≠ "") (ha : allAsciiB s = true) :
    (fieldEncode s).isSome = true ∧
    ((fieldEncode s).getD []).length = (strBytes s).length ∧
    ((fieldEncode s).getD []).dropLast = (strBytes s).dropLast ∧
    ((fieldEncode s).getD []).getLast? = some ((strBytes s).getLastD 0 + 128) := by
  rw [fieldEncode_eq_spec hne ha]
  refine ⟨rfl, ?_, ?_, ?_⟩
  · show (specFieldEncode s).length = (strBytes s).length
    unfold specFieldEncode
    rw [List.length_append, List.length_dropLast]
    have h1 : 0 < (strBytes s).length := List.length_pos.mpr (strBytes_ne_nil hne)
    simp only [List.length_cons, List.length_nil]
    omega
  · show (specFieldEncode s).dropLast = (strBytes s).dropLast
    exact List.dropLast_concat
  · show (specFieldEncode s).getLast? = some ((strBytes s).getLastD 0 + 128)
    exact List.getLast?_concat _

/-- C2 witness at `s = "abc"`. -/
theorem claim_C2_witness :
    (fieldEncode "abc").isSome = true ∧
    ((fieldEncode "abc").getD []).length = (strBytes "abc").length ∧
    ((fieldEncode "abc").getD []).dropLast = (strBytes "abc").dropLast ∧
    ((fieldEncode "abc").getD []).getLast?
      = some ((strBytes "abc").getLastD 0 + 128) :=
  claim_C2 "abc" (by decide) (by rfl)

/-- C3 counterexample: with an empty username the pipeline panics
(`chars().last().unwrap()` on `None`, modelled as `none`); it does not
return a tagged `InvalidField` failure — no such value exists in the code,
whose return type is plain `String`. -/
theorem claim_C3_counterexample :
    sagernet_link_generator false "1.2.3.4" 443 "" "pass0001" "US" "2024-01-01"
      = none := rfl

/-- C3 amended: for every input in which some text field (serverAddress,
username, or password) is the empty string, the encoding pipeline panics —
`chars().last().unwrap()` aborts the process — instead of returning a
tagged `InvalidField` failure. -/
theorem claim_C3 (writerFails : Bool) (sa : String) (port : Nat)
    (u p l e : String) (h : sa = "" ∨ u = "" ∨ p = "") :
    sagernet_link_generator writerFails sa port u p l e = none := by
  unfold sagernet_link_generator
  rw [serializeProfile_empty_field sa port u p l e h]

/-- C3 witness at an empty password. -/
theorem claim_C3_witness :
    sagernet_link_generator true "srv" 22 "u" "" "DE" "2030-01-01" = none :=
  claim_C3 true "srv" 22 "u" "" "DE" "2030-01-01" (Or.inr (Or.inr rfl))

/-- C4 counterexample: when the compression writer rejects data, the
pipeline panics (`compress_data(..).unwrap()` at src/lib.rs:486, modelled
as `none`) instead of returning a tagged `CompressionFailure`. -/
theorem claim_C4_counterexample :
    sagernet_link_generator true "1.2.3.4" 443 "user001" "pass0001" "US"
      "2024-01-01" = none := rfl

/-- C4 amended: `compress_data` itself does surface the writer's error as
an `Err` to its caller, but `sagernet_link_generator` unwraps that result,
so a writer failure aborts (panics) the hosting process for every input;
no `CompressionFailure` value exists in the code. -/
theorem claim_C4 :
    (∀ data : List Nat, compress_data true data = Except.error "write failure")
    ∧ ∀ (sa : String) (port : Nat) (u p l e : String),
        sagernet_link_generator true sa port u p l e = none := by
  constructor
  · intro data
    rfl
  · intro sa port u p l e
    unfold sagernet_link_generator
    cases hs : serializeProfile sa port u p l e <;> simp [compress_data]

theorem qrVersion_reject {len : Nat} (h : qrByteCapacities.getD 39 0 < len) :
    chooseQrVersion len = none := by
  unfold chooseQrVersion
  have hcap : ∀ i < 40, qrByteCapacities.getD i 0 ≤ qrByteCapacities.getD 39 0 := by
    decide
  rw [List.find?_eq_none.mpr ?noidx]
  · rfl
  case noidx =>
    intro i hi
    rw [List.mem_range] at hi
    simp only [decide_eq_true_eq, not_le]
    have := hcap i hi
    omega

theorem qr_oversize_panics (pngFails : Bool) (text : String)
    (h : qrByteCapacities.getD 39 0 < (strBytes text).length) :
    encode_qr_code_to_image_bytes pngFails text = none := by
  unfold encode_qr_code_to_image_bytes
  rw [qrVersion_reject h]

theorem strBytes_replicate_length (n : Nat) :
    (strBytes (String.mk (List.replicate n 'a'))).length = n := by
  have ha : allAsciiB (String.mk (List.replicate n 'a')) = true := by
    unfold allAsciiB
    rw [show (String.mk (List.replicate n 'a')).data
      = List.replicate n 'a' from rfl]
    rw [List.all_eq_true]
    intro c hc
    rw [List.eq_of_mem_replicate hc]
    decide
  rw [strBytes_of_ascii ha,
    show (String.mk (List.replicate n 'a')).data = List.replicate n 'a' from rfl,
    List.length_map, List.length_replicate]

/-- C5 counterexample: a 2332-byte text exceeds the 2331-byte capacity of
the largest QR version at the fixed error-correction level, and the
renderer panics (`QrCode::new(..).unwrap()`, modelled as `none`); it does
not return a tagged `PayloadTooLarge`. -/
theorem claim_C5_counterexample :
    encode_qr_code_to_image_bytes false (String.mk (List.replicate 2332 'a'))
      = none :=
  qr_oversize_panics false _ (by rw [strBytes_replicate_length]; decide)

/-- C5 amended: for every URI text longer than the byte capacity of the
largest QR version at the fixed error-correction level, the QR renderer
panics (`.unwrap()` of the library's error) rather than returning a tagged
`PayloadTooLarge`; it does not silently truncate the payload (no image is
produced at all). -/
theorem claim_C5 (pngFails : Bool) (text : String)
    (h : qrByteCapacities.getD 39 0 < (strBytes text).length) :
    encode_qr_code_to_image_bytes pngFails text = none :=
  qr_oversize_panics pngFails text h

/-- C5 witness at the 2332-byte text. -/
theorem claim_C5_witness :
    encode_qr_code_to_image_bytes true (String.mk (List.replicate 2332 'a'))
      = none :=
  claim_C5 true (String.mk (List.replicate 2332 'a'))
    (by rw [strBytes_replicate_length]; decide)

/-- C6 counterexample: for an accepted URI text, when serialization of the
raster to PNG fails, the renderer discards the error (`write_to`'s `Result`
is dropped at src/lib.rs:516) and returns the untouched — empty — buffer as
though it had succeeded, instead of reporting `ImageEncodingFailure`. -/
theorem claim_C6_counterexample :
    encode_qr_code_to_image_bytes true "sn://ssh?test" = some [] := rfl

/-- C6 amended: for every accepted URI text, a failure of the
raster-to-PNG serialization is swallowed: the function returns the empty
byte stream as a success value; no `ImageEncodingFailure` is reported (no
such value exists — the return type is a plain byte vector). -/
theorem claim_C6 (text : String) (v : Nat)
    (hv : chooseQrVersion (strBytes text).length = some v) :
    encode_qr_code_to_image_bytes true text = some [] := by
  unfold encode_qr_code_to_image_bytes
  rw [hv]
  rfl

/-- C6 witness at an accepted text. -/
theorem claim_C6_witness :
    encode_qr_code_to_image_bytes true "sn://ssh?abc" = some [] :=
  claim_C6 "sn://ssh?abc" 1 (by rfl)

/-- C7: for every accepted URI text (one the version chooser accepts), the
rendered raster is square with side `qrRasterDim v`, at most 550 pixels,
strictly positive, and an integer number of pixels per module
(`moduleSize` pixels per module over the `modules + quiet zone` grid). -/
theorem claim_C7 (text : String) (v : Nat)
    (hv : chooseQrVersion (strBytes text).length = some v) :
    encode_qr_code_to_image_bytes false text
      = some [qrRasterDim v, qrRasterDim v] ∧
    qrRasterDim v ≤ 550 ∧ 0 < qrRasterDim v ∧
    qrRasterDim v = (qrModules v + 2 * qrQuietZone) * qrModuleSize v := by
  have hv40 : 1 ≤ v ∧ v ≤ 40 := by
    unfold chooseQrVersion at hv
    cases hf : (List.range 40).find?
        (fun i => decide ((strBytes text).length ≤ qrByteCapacities.getD i 0)) with
    | none => rw [hf] at hv; cases hv
    | some i =>
      rw [hf] at hv
      have hvi : v = i + 1 := (Option.some.inj hv).symm
      have hmem : i ∈ List.range 40 := List.mem_of_find?_eq_some hf
      rw [List.mem_range] at hmem
      omega
  have hbound : ∀ w < 41, 1 ≤ w → qrRasterDim w ≤ 550 ∧ 0 < qrRasterDim w := by
    decide
  obtain ⟨hb1, hb2⟩ := hbound v (by omega) hv40.1
  refine ⟨?_, hb1, hb2, rfl⟩
  unfold encode_qr_code_to_image_bytes
  rw [hv]
  rfl

/-- C7 witness at an accepted text (version 1). -/
theorem claim_C7_witness :
    encode_qr_code_to_image_bytes false "sn://ssh?test"
      = some [qrRasterDim 1, qrRasterDim 1] ∧
    qrRasterDim 1 ≤ 550 ∧ 0 < qrRasterDim 1 ∧
    qrRasterDim 1 = (qrModules 1 + 2 * qrQuietZone) * qrModuleSize 1 :=
  claim_C7 "sn://ssh?test" 1 (by rfl)

/-- C8: for every input on which the pipeline succeeds, the returned link
text equals `"sn://ssh?"` concatenated with the URL-safe base64 encoding
of the compressed payload; every character after the scheme belongs to the
URL-safe alphabet. -/
theorem claim_C8 (writerFails : Bool) (sa : String) (port : Nat)
    (u p l e : String) (s : String)
    (h : sagernet_link_generator writerFails sa port u p l e = some s) :
    s = "sn://ssh?" ++ base64urlEncode (zlibCompress
        ((serializeProfile sa port u p l e).getD [])) ∧
    isUrlSafeText (base64urlEncode (zlibCompress
        ((serializeProfile sa port u p l e).getD []))) = true := by
  unfold sagernet_link_generator at h
  cases hs : serializeProfile sa port u p l e with
  | none =>
    rw [hs] at h
    have h2 : (none : Option String) = some s := h
    cases h2
  | some kryo =>
    rw [hs] at h
    cases writerFails with
    | true =>
      have h2 : (none : Option String) = some s := h
      cases h2
    | false =>
      have h2 : some ("sn://ssh?" ++ base64urlEncode (zlibCompress kryo))
        = some s := h
      constructor
      · exact (Option.some.inj h2).symm
      · exact isUrlSafeText_base64urlEncode _
          (zlibCompress_lt kryo (serializeProfile_lt hs))

set_option maxRecDepth 8000 in
/-- C8 witness: the full pipeline at the golden profile, with the literal
link text. -/
theorem claim_C8_witness :
    ("sn://ssh?eAEBTACz_wAAAAAxLjIuMy60uwEAAHVzZXIwMLEBAAAAcGFzczAwMLGBAQAAAKFTcGVlZFBpbmcodXNlcjAwMSkgVVMgMjAyNC0wMS0wMQAAAADVeRJp" : String)
      = "sn://ssh?" ++ base64urlEncode (zlibCompress
          ((serializeProfile "1.2.3.4" 443 "user001" "pass0001" "US"
            "2024-01-01").getD [])) ∧
    isUrlSafeText (base64urlEncode (zlibCompress
        ((serializeProfile "1.2.3.4" 443 "user001" "pass0001" "US"
          "2024-01-01").getD []))) = true :=
  claim_C8 false "1.2.3.4" 443 "user001" "pass0001" "US" "2024-01-01"
    "sn://ssh?eAEBTACz_wAAAAAxLjIuMy60uwEAAHVzZXIwMLEBAAAAcGFzczAwMLGBAQAAAKFTcGVlZFBpbmcodXNlcjAwMSkgVVMgMjAyNC0wMS0wMQAAAADVeRJp"
    (by
      have h1 : serializeProfile "1.2.3.4" 443 "user001" "pass0001" "US"
          "2024-01-01" = some goldenBytes := by rfl
      have h2 : deflateStored goldenBytes
          = 1 :: 76 :: 0 :: 179 :: 255 :: goldenBytes := by
        rw [deflateStored, if_pos (by decide)]
        decide
      unfold sagernet_link_generator
      rw [h1]
      show some ("sn://ssh?" ++ base64urlEncode (zlibCompress goldenBytes))
        = some "sn://ssh?eAEBTACz_wAAAAAxLjIuMy60uwEAAHVzZXIwMLEBAAAAcGFzczAwMLGBAQAAAKFTcGVlZFBpbmcodXNlcjAwMSkgVVMgMjAyNC0wMS0wMQAAAADVeRJp"
      rw [show zlibCompress goldenBytes
        = 120 :: 1 :: ((1 :: 76 :: 0 :: 179 :: 255 :: goldenBytes)
          ++ adlerBytes goldenBytes) from by rw [zlibCompress, h2]]
      decide)

/-- C9: decoding recovers every byte sequence through each encoding stage
independently: zlib-decompressing the compression stage's output yields
the input, and base64url-decoding the text-encoding stage's output (URL
safe alphabet, `-`/`_`) yields the input. -/
theorem claim_C9 (b : List Nat) (h : ∀ x ∈ b, x < 256) :
    zlibDecompress (zlibCompress b) = some b ∧
    base64urlDecode (base64urlEncode b) = some b :=
  ⟨zlibDecompress_zlibCompress b, base64urlDecode_base64urlEncode b h⟩

/-- C9 witness at a concrete byte sequence. -/
theorem claim_C9_witness :
    zlibDecompress (zlibCompress [0, 255, 77, 1, 2]) = some [0, 255, 77, 1, 2] ∧
    base64urlDecode (base64urlEncode [0, 255, 77, 1, 2])
      = some [0, 255, 77, 1, 2] :=
  claim_C9 [0, 255, 77, 1, 2] (by decide)

/-- C10: the link generator accepts a 32-bit port and, for every port
`≥ 65536`, silently serializes `port mod 2^16` — the payload equals the one
for `port % 65536`, the profile is not rejected, and the 2-byte
little-endian port field (right after the 4-byte header and the encoded
server address) holds `port % 65536`. -/
theorem claim_C10 (sa : String) (port : Nat) (u p l e : String)
    (h32 : port < 4294967296) (hbig : 65536 ≤ port)
    (hsa : sa ≠ "") (hu : u ≠ "") (hp : p ≠ "") :
    serializeProfile sa port u p l e = serializeProfile sa (port % 65536) u p l e ∧
    (serializeProfile sa port u p l e).isSome = true ∧
    (((serializeProfile sa port u p l e).getD []).drop
        (4 + (strBytes sa).length)).take 2
      = [port % 65536 % 256, port % 65536 / 256] := by
  obtain ⟨saB, hsaB, hsaLen⟩ := fieldEncode_of_ne_empty hsa
  obtain ⟨uB, huB, _⟩ := fieldEncode_of_ne_empty hu
  obtain ⟨pB, hpB, _⟩ := fieldEncode_of_ne_empty hp
  have hmod : port % 65536 % 65536 = port % 65536 := by omega
  refine ⟨?_, ?_, ?_⟩
  · unfold serializeProfile
    rw [hmod]
  · unfold serializeProfile
    rw [hsaB, huB, hpB]
    rfl
  · unfold serializeProfile
    rw [hsaB, huB, hpB]
    show (([0, 0, 0, 0] ++ saB
        ++ [port % 65536 % 256, port % 65536 / 256]
        ++ [0, 0] ++ uB
        ++ [1, 0, 0, 0] ++ pB
        ++ [0x81, 0x01, 0x00, 0x00, 0x00, 0xA1]
        ++ strBytes (titleOf u l e)
        ++ [0, 0, 0, 0]).drop (4 + (strBytes sa).length)).take 2
      = [port % 65536 % 256, port % 65536 / 256]
    rw [show ([0, 0, 0, 0] ++ saB
        ++ [port % 65536 % 256, port % 65536 / 256]
        ++ [0, 0] ++ uB
        ++ [1, 0, 0, 0] ++ pB
        ++ [0x81, 0x01, 0x00, 0x00, 0x00, 0xA1]
        ++ strBytes (titleOf u l e)
        ++ [0, 0, 0, 0])
      = ([0, 0, 0, 0] ++ saB)
        ++ ([port % 65536 % 256, port % 65536 / 256]
          ++ ([0, 0] ++ uB
          ++ [1, 0, 0, 0] ++ pB
          ++ [0x81, 0x01, 0x00, 0x00, 0x00, 0xA1]
          ++ strBytes (titleOf u l e)
          ++ [0, 0, 0, 0])) from by simp [List.append_assoc]]
    rw [List.drop_left' (by
      simp only [List.length_append, List.length_cons, List.length_nil,
        hsaLen] <;> omega)]
    rfl

/-- C10 witness: port 65979 = 65536 + 443 truncates to 443 (`BB 01`). -/
theorem claim_C10_witness :
    serializeProfile "1.2.3.4" 65979 "user001" "pass0001" "US" "2024-01-01"
      = serializeProfile "1.2.3.4" (65979 % 65536) "user001" "pass0001" "US"
          "2024-01-01" ∧
    (serializeProfile "1.2.3.4" 65979 "user001" "pass0001" "US"
        "2024-01-01").isSome = true ∧
    (((serializeProfile "1.2.3.4" 65979 "user001" "pass0001" "US"
        "2024-01-01").getD []).drop (4 + (strBytes "1.2.3.4").length)).take 2
      = [65979 % 65536 % 256, 65979 % 65536 / 256] :=
  claim_C10 "1.2.3.4" 65979 "user001" "pass0001" "US" "2024-01-01"
    (by decide) (by decide) (by decide) (by decide) (by decide)

end SshMgr
